import Mathlib

/-!
Shallow embedding of the room/game state machine of the backup-deathmatch
repository (src/src/services/gameService.ts, the room service and deck
service of src/unnamed/part_016, and src/src/config/gameConfig.ts).

Modelling conventions:
* Firestore documents become a Lean structure `FirestoreRoom`; the `players`
  object (player-id keyed map) becomes an insertion-ordered association list,
  matching JavaScript object key ordering.
* Firebase `Timestamp` fields (`createdAt`, `lastUpdate`, `finishedAt`) carry
  no game logic and are not modelled.
* Each transition is a pure function `FirestoreRoom → Except String
  FirestoreRoom`; a thrown error inside the Firestore transaction aborts the
  write, so an `Except.error` result corresponds to the document being left
  unchanged.
* `Math.random`-driven choices in the deck service are passed explicitly as
  parameters (a shuffled list stands for a shuffle, a list of offsets stands
  for the drawn random numbers).
-/

deriving instance DecidableEq for Except

namespace BackupDeathmatch

/-- Card authenticity categories (src/src/types/index.ts). -/
inductive Authenticity where
  | authentic
  | corrupted
  | fatalGlitch
deriving DecidableEq, Repr

/-- A memory card: text body, authenticity label and point value
(src/src/types/index.ts, `MemoryCard`). -/
structure MemoryCard where
  memory : String
  authenticity : Authenticity
  value : Int
deriving DecidableEq, Repr

/-- Per-player data stored in the room document (`FirestorePlayer`).
Item cards carry no logic relevant here; they are modelled by their ids. -/
structure FirestorePlayer where
  integrity : Int
  items : List String
deriving DecidableEq, Repr

/-- Room lifecycle status (src/src/types/index.ts, `RoomStatus`). -/
inductive RoomStatus where
  | waiting
  | intro
  | playing
  | finished
deriving DecidableEq, Repr

/-- Turn sub-phase (src/src/types/index.ts, `TurnState`); the `reveal`
member of the union type never occurs in any transition but is part of the
declared type. -/
inductive TurnState where
  | draw
  | decide
  | opponentDecide
  | reveal
deriving DecidableEq, Repr

/-- String form of a turn state, as interpolated into error messages. -/
def turnStateName : TurnState → String
  | .draw => "draw"
  | .decide => "decide"
  | .opponentDecide => "opponent_decide"
  | .reveal => "reveal"

/-- String form of a room status, as interpolated into error messages. -/
def roomStatusName : RoomStatus → String
  | .waiting => "waiting"
  | .intro => "intro"
  | .playing => "playing"
  | .finished => "finished"

/-- The room document (src/src/types/index.ts, `FirestoreRoom`), without the
Firebase timestamp fields. `winner`/`win_reason` are optional fields set when
the game finishes; `revealed_real_memories` defaults to the empty list. -/
structure FirestoreRoom where
  players : List (String × FirestorePlayer)
  status : RoomStatus
  order_players : List String
  turn : Nat
  memory_deck : List MemoryCard
  current_card : Option MemoryCard
  table_cards : List MemoryCard
  cards_drawn : Nat
  turn_state : TurnState
  selected_card_index : Option Nat
  current_multiplier : Int
  card_initiator : Option String
  revealed_real_memories : List String
  winner : Option String
  win_reason : Option String
deriving DecidableEq, Repr

/-- Integrity of a player in the players map; `players[pid].integrity` in the
source. A missing key is read as 0 here (the source would throw; every claim
is stated on rooms whose order players are present in the map). -/
def integrityOf (players : List (String × FirestorePlayer)) (pid : String) : Int :=
  match players.lookup pid with
  | some p => p.integrity
  | none => 0

/-- Whether `pid` is a key of the players map (`roomData.players[userId]`
truthiness check in the source). -/
def hasPlayer (players : List (String × FirestorePlayer)) (pid : String) : Bool :=
  (players.lookup pid).isSome

/-- The update `updatedPlayers[pid].integrity += points` on a copied players
map. -/
def addIntegrity (players : List (String × FirestorePlayer)) (pid : String)
    (points : Int) : List (String × FirestorePlayer) :=
  players.map fun e =>
    if e.1 = pid then (e.1, { e.2 with integrity := e.2.integrity + points }) else e

/-- Result record of `checkVictoryCondition` (src/src/services/gameService.ts). -/
structure VictoryResult where
  hasWinner : Bool
  winnerId : Option String
  reason : String
deriving DecidableEq, Repr

/-- src/src/services/gameService.ts, `checkVictoryCondition` (lines 163-211):
first scan of `orderPlayers` for integrity ≥ 10 (reason `reached_10_points`),
then a second scan for integrity ≤ -10, in which case the first *other*
player found wins with reason `opponent_defeated`. -/
def checkVictoryCondition (players : List (String × FirestorePlayer))
    (orderPlayers : List String) : VictoryResult :=
  match orderPlayers.find? (fun pid => decide (10 ≤ integrityOf players pid)) with
  | some pid => { hasWinner := true, winnerId := some pid, reason := "reached_10_points" }
  | none =>
    match orderPlayers.find? (fun pid => decide (integrityOf players pid ≤ -10)) with
    | some loser =>
      { hasWinner := true
        winnerId := orderPlayers.find? (fun pid => pid != loser)
        reason := "opponent_defeated" }
    | none => { hasWinner := false, winnerId := none, reason := "" }

/-- src/src/services/gameService.ts, `initializeTableCards`: the first 3
cards of the deck, failing if the deck has fewer than 3 cards. -/
def initializeTableCards (memoryDeck : List MemoryCard) :
    Except String (List MemoryCard) :=
  if memoryDeck.length < 3 then
    .error "El mazo debe tener al menos 3 cartas para inicializar el tablero."
  else
    .ok (memoryDeck.take 3)

/-- src/src/services/gameService.ts, `refreshTableCards` (lines 48-104):
validates the selected index, then either replaces the selected slot with the
next undrawn deck card (incrementing `cardsDrawn`) or, when the deck is
exhausted, removes the slot (`splice(selectedCardIndex, 1)`). The source also
rejects a negative index; the index is a `Nat` here. -/
def refreshTableCards (currentTableCards : List MemoryCard)
    (selectedCardIndex : Nat) (memoryDeck : List MemoryCard) (cardsDrawn : Nat) :
    Except String (List MemoryCard × Nat) :=
  if currentTableCards.length ≤ selectedCardIndex then
    .error "Índice de carta inválido."
  else if h : cardsDrawn < memoryDeck.length then
    .ok (currentTableCards.set selectedCardIndex (memoryDeck.get ⟨cardsDrawn, h⟩),
      cardsDrawn + 1)
  else
    .ok (currentTableCards.eraseIdx selectedCardIndex, cardsDrawn)

/-- src/src/services/gameService.ts, `canGameContinue`: true iff cards remain
on the table or in the deck. -/
def canGameContinue (tableCards : List MemoryCard) (memoryDeck : List MemoryCard)
    (cardsDrawn : Nat) : Bool :=
  decide (0 < tableCards.length) || decide (cardsDrawn < memoryDeck.length)

/-- src/src/services/gameService.ts, `getRemainingCardsCount`: cards on table
plus undrawn deck cards. -/
def getRemainingCardsCount (tableCards : List MemoryCard)
    (memoryDeck : List MemoryCard) (cardsDrawn : Nat) : Nat :=
  tableCards.length + (memoryDeck.length - cardsDrawn)

/-- src/src/services/gameService.ts, `selectCard` (lines 222-297): DRAW-phase
transition; validates status, phase, acting player and index, then moves the
table card at `cardIndex` into `current_card` and enters DECIDE. The source
compares `order_players[turn] !== userId`; an out-of-bounds `turn` reads as
`undefined`, which differs from every user id, hence the `Option` comparison. -/
def selectCard (room : FirestoreRoom) (cardIndex : Nat) (userId : String) :
    Except String FirestoreRoom :=
  if room.status ≠ .playing then
    .error "La partida no está en progreso."
  else if room.turn_state ≠ .draw then
    .error ("No puedes seleccionar una carta en este momento. Estado actual: "
      ++ turnStateName room.turn_state)
  else if room.order_players.get? room.turn ≠ some userId then
    .error "No es tu turno."
  else if room.table_cards.length ≤ cardIndex then
    .error "Índice de carta inválido."
  else
    .ok { room with
      current_card := room.table_cards.get? cardIndex
      selected_card_index := some cardIndex
      card_initiator := some userId
      turn_state := .decide
      current_multiplier := 1 }

/-- src/src/services/gameService.ts, `claimCard` (lines 308-437): DECIDE-phase
resolving transition. Applies `current_card.value * current_multiplier` to the
initiator, refreshes the table, appends authentic memories to the revealed
log, runs the victory check, then either finishes the match (note: without
resetting `turn_state`) or advances the turn. The source reads
`selected_card_index!` with a non-null assertion; it is read with default 0
here (every state that passes the DECIDE validations carries a real index). -/
def claimCard (room : FirestoreRoom) (userId : String) :
    Except String FirestoreRoom :=
  if room.status ≠ .playing then
    .error "La partida no está en progreso."
  else if room.turn_state ≠ .decide then
    .error ("No puedes reclamar una carta en este momento. Estado actual: "
      ++ turnStateName room.turn_state)
  else if room.card_initiator ≠ some userId then
    .error "No puedes reclamar esta carta."
  else
    match room.current_card with
    | none => .error "No hay carta seleccionada."
    | some card =>
      let points := card.value * room.current_multiplier
      let updatedPlayers := addIntegrity room.players userId points
      match refreshTableCards room.table_cards (room.selected_card_index.getD 0)
          room.memory_deck room.cards_drawn with
      | .error e => .error e
      | .ok (tableCards, newCardsDrawn) =>
        let nextTurn := (room.turn + 1) % room.order_players.length
        let updatedRevealedMemories :=
          if card.authenticity = .authentic then
            room.revealed_real_memories ++ [card.memory]
          else room.revealed_real_memories
        let victoryCheck := checkVictoryCondition updatedPlayers room.order_players
        if victoryCheck.hasWinner then
          .ok { room with
            players := updatedPlayers
            table_cards := tableCards
            cards_drawn := newCardsDrawn
            status := .finished
            winner := victoryCheck.winnerId
            win_reason := some victoryCheck.reason
            current_card := none
            selected_card_index := none
            current_multiplier := 1
            card_initiator := none
            revealed_real_memories := updatedRevealedMemories }
        else
          .ok { room with
            players := updatedPlayers
            table_cards := tableCards
            cards_drawn := newCardsDrawn
            turn := nextTurn
            turn_state := .draw
            current_card := none
            selected_card_index := none
            current_multiplier := 1
            card_initiator := none
            revealed_real_memories := updatedRevealedMemories }

/-- src/src/services/gameService.ts, `rejectCard` (lines 448-512): DECIDE-phase
transition; validates like claim, then only switches to OPPONENT_DECIDE with
multiplier 3 — no points, no table refresh, no turn advance. -/
def rejectCard (room : FirestoreRoom) (userId : String) :
    Except String FirestoreRoom :=
  if room.status ≠ .playing then
    .error "La partida no está en progreso."
  else if room.turn_state ≠ .decide then
    .error ("No puedes rechazar una carta en este momento. Estado actual: "
      ++ turnStateName room.turn_state)
  else if room.card_initiator ≠ some userId then
    .error "No puedes rechazar esta carta."
  else
    match room.current_card with
    | none => .error "No hay carta seleccionada."
    | some _ =>
      .ok { room with
        turn_state := .opponentDecide
        current_multiplier := 3 }

/-- src/src/services/gameService.ts, `opponentClaimCard` (lines 524-658):
OPPONENT_DECIDE-phase resolving transition; the acting player must not be the
initiator and must be in the players map; points (value × multiplier, 3×) go
to the acting opponent; then table refresh, revealed log, victory check and
finish/advance exactly as in `claimCard`. -/
def opponentClaimCard (room : FirestoreRoom) (userId : String) :
    Except String FirestoreRoom :=
  if room.status ≠ .playing then
    .error "La partida no está en progreso."
  else if room.turn_state ≠ .opponentDecide then
    .error ("No puedes reclamar en este momento. Estado actual: "
      ++ turnStateName room.turn_state)
  else if room.card_initiator = some userId then
    .error "No puedes reclamar tu propia carta rechazada."
  else if ¬ hasPlayer room.players userId then
    .error "No eres parte de esta partida."
  else
    match room.current_card with
    | none => .error "No hay carta seleccionada."
    | some card =>
      let points := card.value * room.current_multiplier
      let updatedPlayers := addIntegrity room.players userId points
      match refreshTableCards room.table_cards (room.selected_card_index.getD 0)
          room.memory_deck room.cards_drawn with
      | .error e => .error e
      | .ok (tableCards, newCardsDrawn) =>
        let nextTurn := (room.turn + 1) % room.order_players.length
        let updatedRevealedMemories :=
          if card.authenticity = .authentic then
            room.revealed_real_memories ++ [card.memory]
          else room.revealed_real_memories
        let victoryCheck := checkVictoryCondition updatedPlayers room.order_players
        if victoryCheck.hasWinner then
          .ok { room with
            players := updatedPlayers
            table_cards := tableCards
            cards_drawn := newCardsDrawn
            status := .finished
            winner := victoryCheck.winnerId
            win_reason := some victoryCheck.reason
            current_card := none
            selected_card_index := none
            current_multiplier := 1
            card_initiator := none
            revealed_real_memories := updatedRevealedMemories }
        else
          .ok { room with
            players := updatedPlayers
            table_cards := tableCards
            cards_drawn := newCardsDrawn
            turn := nextTurn
            turn_state := .draw
            current_card := none
            selected_card_index := none
            current_multiplier := 1
            card_initiator := none
            revealed_real_memories := updatedRevealedMemories }

/-- src/src/services/gameService.ts, `opponentRejectBack` (lines 670-810):
OPPONENT_DECIDE-phase resolving transition; the 3× points are forced onto the
original initiator (`card_initiator`), then the same refresh / revealed log /
victory check / finish-or-advance sequence runs. -/
def opponentRejectBack (room : FirestoreRoom) (userId : String) :
    Except String FirestoreRoom :=
  if room.status ≠ .playing then
    .error "La partida no está en progreso."
  else if room.turn_state ≠ .opponentDecide then
    .error ("No puedes rechazar en este momento. Estado actual: "
      ++ turnStateName room.turn_state)
  else if room.card_initiator = some userId then
    .error "No puedes rechazar tu propia carta."
  else if ¬ hasPlayer room.players userId then
    .error "No eres parte de esta partida."
  else
    match room.current_card with
    | none => .error "No hay carta seleccionada."
    | some card =>
      match room.card_initiator with
      | none => .error "No hay jugador iniciador."
      | some initiator =>
        let points := card.value * room.current_multiplier
        let updatedPlayers := addIntegrity room.players initiator points
        match refreshTableCards room.table_cards (room.selected_card_index.getD 0)
            room.memory_deck room.cards_drawn with
        | .error e => .error e
        | .ok (tableCards, newCardsDrawn) =>
          let nextTurn := (room.turn + 1) % room.order_players.length
          let updatedRevealedMemories :=
            if card.authenticity = .authentic then
              room.revealed_real_memories ++ [card.memory]
            else room.revealed_real_memories
          let victoryCheck := checkVictoryCondition updatedPlayers room.order_players
          if victoryCheck.hasWinner then
            .ok { room with
              players := updatedPlayers
              table_cards := tableCards
              cards_drawn := newCardsDrawn
              status := .finished
              winner := victoryCheck.winnerId
              win_reason := some victoryCheck.reason
              current_card := none
              selected_card_index := none
              current_multiplier := 1
              card_initiator := none
              revealed_real_memories := updatedRevealedMemories }
          else
            .ok { room with
              players := updatedPlayers
              table_cards := tableCards
              cards_drawn := newCardsDrawn
              turn := nextTurn
              turn_state := .draw
              current_card := none
              selected_card_index := none
              current_multiplier := 1
              card_initiator := none
              revealed_real_memories := updatedRevealedMemories }

/-- src/unnamed/part_016, `createRoom` (lines 408-513): generates the deck
(`generateGameDeck`), initializes the table with its first 3 cards, and
creates the room document in status `waiting` with the creator as the only
player, `cards_drawn = 3`, turn state `draw`. The randomized generated deck
is passed in as `memoryDeck`. Room-code generation and the user-document
update are external concerns not modelled. -/
def createRoom (userId : String) (memoryDeck : List MemoryCard) :
    Except String FirestoreRoom :=
  match initializeTableCards memoryDeck with
  | .error e => .error e
  | .ok tableCards =>
    .ok { players := [(userId, { integrity := 0, items := [] })]
          status := .waiting
          order_players := [userId]
          turn := 0
          memory_deck := memoryDeck
          current_card := none
          table_cards := tableCards
          cards_drawn := 3
          turn_state := .draw
          selected_card_index := none
          current_multiplier := 1
          card_initiator := none
          revealed_real_memories := []
          winner := none
          win_reason := none }

/-- src/unnamed/part_016, `joinRoom` (lines 586-644): rejects a full room
(2 players), a player already in the map, or a room that is not `waiting`;
otherwise adds the player with integrity 0 and empty items and appends the id
to `order_players`. -/
def joinRoom (room : FirestoreRoom) (userId : String) :
    Except String FirestoreRoom :=
  if 2 ≤ room.players.length then
    .error "La sala está llena (máximo 2 jugadores)."
  else if hasPlayer room.players userId then
    .error "Ya estás en esta sala."
  else if room.status ≠ .waiting then
    .error "La partida ya ha comenzado."
  else
    .ok { room with
      players := room.players ++ [(userId, { integrity := 0, items := [] })]
      order_players := room.order_players ++ [userId] }

/-- Outcome of `leaveRoom`: the room document is either deleted or updated. -/
inductive LeaveResult where
  | roomDeleted
  | roomUpdated (room : FirestoreRoom)
deriving DecidableEq, Repr

/-- src/unnamed/part_016, `leaveRoom` (lines 652-715): removes the player from
the players map and `order_players`; deletes an emptied `waiting` room,
merely updates the document while players remain (note: `turn` is not
touched), and marks an emptied active room `finished`. -/
def leaveRoom (room : FirestoreRoom) (userId : String) : LeaveResult :=
  let updatedPlayers := room.players.filter (fun e => e.1 != userId)
  let updatedOrderPlayers := room.order_players.filter (fun pid => pid != userId)
  let remainingPlayersCount := updatedOrderPlayers.length
  if room.status = .waiting ∧ remainingPlayersCount = 0 then
    .roomDeleted
  else if 0 < remainingPlayersCount then
    .roomUpdated { room with
      players := updatedPlayers
      order_players := updatedOrderPlayers }
  else
    .roomUpdated { room with
      players := updatedPlayers
      order_players := updatedOrderPlayers
      status := .finished }

/-- src/unnamed/part_016, `startGame` (lines 725-785): waiting → intro;
requires exactly 2 players and that the caller is the creator
(`order_players[0]`). -/
def startGame (room : FirestoreRoom) (userId : String) :
    Except String FirestoreRoom :=
  if room.status ≠ .waiting then
    .error "La partida ya ha comenzado o ha finalizado."
  else if room.players.length ≠ 2 then
    .error "Se necesitan exactamente 2 jugadores para iniciar la partida."
  else if room.order_players.get? 0 ≠ some userId then
    .error "Solo el creador de la sala puede iniciar la partida."
  else
    .ok { room with status := .intro }

/-- src/unnamed/part_016, `completeIntro` (lines 794-840): intro → playing;
the only mutation is the status field (no deck generation, no table
initialization happens here). -/
def completeIntro (room : FirestoreRoom) : Except String FirestoreRoom :=
  if room.status ≠ .intro then
    .error ("La intro no está en progreso. Status actual: "
      ++ roomStatusName room.status)
  else
    .ok { room with status := .playing }

/-! Deck service (src/unnamed/part_016, lines 841-1015) and its configuration
(src/src/config/gameConfig.ts). -/

/-- GAME_CONFIG.deck.totalCards. -/
def totalCards : Nat := 15

/-- GAME_CONFIG.deck.distribution.authentic. -/
def distributionAuthentic : Nat := 8

/-- GAME_CONFIG.deck.distribution.corrupted. -/
def distributionCorrupted : Nat := 6

/-- GAME_CONFIG.deck.distribution.fatalGlitch. -/
def distributionFatalGlitch : Nat := 1

/-- GAME_CONFIG.pointValues. -/
def pointValue : Authenticity → Int
  | .authentic => 1
  | .corrupted => -1
  | .fatalGlitch => -10

/-- GAME_CONFIG.winConditions.maxIntegrity ("First player to reach this
wins"). `checkVictoryCondition` hard-codes the literal 10 instead of reading
this constant. -/
def maxIntegrity : Int := 10

/-- GAME_CONFIG.winConditions.minIntegrity ("Player at or below this loses").
`checkVictoryCondition` ignores this constant and hard-codes -10. -/
def minIntegrity : Int := 0

/-- `generateGameDeck`, step 2: the authenticity pool without fatal glitches
(8 authentic followed by 6 corrupted before shuffling). -/
def nonFatalAuthenticities : List Authenticity :=
  List.replicate distributionAuthentic .authentic
    ++ List.replicate distributionCorrupted .corrupted

/-- `generateGameDeck`, step 4: `minFatalPosition` — fatal glitches may only
be inserted from this index onwards. -/
def minFatalPosition : Nat := 7

/-- JavaScript `array.splice(pos, 0, a)`: insert `a` at index `pos`, clamping
`pos` to the array length. -/
def spliceInsert (l : List α) (pos : Nat) (a : α) : List α :=
  l.take pos ++ a :: l.drop pos

/-- `generateGameDeck`, step 4 loop: insert one fatal glitch per configured
fatal card at position `minFatalPosition + randomOffset`, where each offset
models `Math.floor(Math.random() * (totalCards - minFatalPosition))`. -/
def insertFatals (base : List Authenticity) (randomOffsets : List Nat) :
    List Authenticity :=
  randomOffsets.foldl
    (fun acc r => spliceInsert acc (minFatalPosition + r) .fatalGlitch) base

/-- src/unnamed/part_016, `generateGameDeck` (lines 923-1015), with the random
choices made explicit: `selectedMemories` stands for the shuffled 15-memory
selection from the pool, `shuffledNonFatal` for the shuffled non-fatal
authenticity pool, and `randomOffsets` for the fatal-glitch position draws.
Step 5 pairs each memory with the authenticity at the same index and derives
the value from `GAME_CONFIG.pointValues`. -/
def generateGameDeck (selectedMemories : List String)
    (shuffledNonFatal : List Authenticity) (randomOffsets : List Nat) :
    List MemoryCard :=
  let shuffledAuthenticity := insertFatals shuffledNonFatal randomOffsets
  List.zipWith
    (fun m a => { memory := m, authenticity := a, value := pointValue a })
    selectedMemories shuffledAuthenticity

/-! Reachability: rooms evolve from a created room through the lifecycle and
game transitions, each applied atomically; a failed (error) transition leaves
the document unchanged, so reachability is generated by the successful
steps. A deleted room has no further states. -/

/-- One externally triggered action against a room document. -/
inductive Action where
  | join (userId : String)
  | leave (userId : String)
  | start (userId : String)
  | finishIntro
  | select (userId : String) (cardIndex : Nat)
  | claim (userId : String)
  | reject (userId : String)
  | oppClaim (userId : String)
  | oppRejectBack (userId : String)
deriving DecidableEq, Repr

/-- Successful result of a transition, if any. -/
def exceptToOption : Except String FirestoreRoom → Option FirestoreRoom
  | .ok r => some r
  | .error _ => none

/-- Apply one action to a room; `none` when the transition fails (document
unchanged) or the document is deleted. -/
def stepAction (room : FirestoreRoom) : Action → Option FirestoreRoom
  | .join u => exceptToOption (joinRoom room u)
  | .leave u =>
    match leaveRoom room u with
    | .roomDeleted => none
    | .roomUpdated r => some r
  | .start u => exceptToOption (startGame room u)
  | .finishIntro => exceptToOption (completeIntro room)
  | .select u i => exceptToOption (selectCard room i u)
  | .claim u => exceptToOption (claimCard room u)
  | .reject u => exceptToOption (rejectCard room u)
  | .oppClaim u => exceptToOption (opponentClaimCard room u)
  | .oppRejectBack u => exceptToOption (opponentRejectBack room u)

/-- Run a list of actions, requiring every one to succeed. -/
def run (room : FirestoreRoom) : List Action → Option FirestoreRoom
  | [] => some room
  | a :: rest =>
    match stepAction room a with
    | none => none
    | some r => run r rest

/-- States reachable from `init` through successful transitions. -/
inductive Reachable (init : FirestoreRoom) : FirestoreRoom → Prop
  | refl : Reachable init init
  | step {s t : FirestoreRoom} {a : Action} :
      Reachable init s → stepAction s a = some t → Reachable init t

/-- Table/supply invariant: at most 3 table cards, the draw counter never
exceeds the deck, and the table is short of 3 only once the deck is
exhausted. -/
def TableInv (room : FirestoreRoom) : Prop :=
  room.table_cards.length ≤ 3 ∧
    room.cards_drawn ≤ room.memory_deck.length ∧
    (room.table_cards.length < 3 →
      room.cards_drawn = room.memory_deck.length)

/-- Card-presence invariant of a non-finished room: a card is in play exactly
during the DECIDE and OPPONENT_DECIDE phases. -/
def CardInv (room : FirestoreRoom) : Prop :=
  room.status ≠ .finished →
    (room.current_card.isSome = true ↔
      room.turn_state = .decide ∨ room.turn_state = .opponentDecide)

/-- The three transitions whose success resolves the card in play. -/
def isResolving : Action → Bool
  | .claim _ => true
  | .oppClaim _ => true
  | .oppRejectBack _ => true
  | _ => false

/-! Concrete fixtures: generator-shaped decks (8 authentic, 6 corrupted,
1 fatal glitch past index 7, values from `pointValues`) and action traces used
to exhibit reachable states. -/

/-- A card with the value the generator derives from its authenticity. -/
def mkCard (m : String) (a : Authenticity) : MemoryCard :=
  { memory := m, authenticity := a, value := pointValue a }

def standardMemories : List String :=
  ["m0", "m1", "m2", "m3", "m4", "m5", "m6", "m7", "m8", "m9", "m10", "m11",
   "m12", "m13", "m14"]

/-- A shuffle of the 8-authentic / 6-corrupted pool. -/
def standardNonFatal : List Authenticity :=
  [.authentic, .corrupted, .authentic, .corrupted, .authentic, .corrupted,
   .authentic, .corrupted, .authentic, .corrupted, .authentic, .corrupted,
   .authentic, .authentic]

/-- A deck the generator produces from `standardNonFatal` with the fatal
glitch drawn into position 14. -/
def standardDeck : List MemoryCard :=
  generateGameDeck standardMemories standardNonFatal [7]

/-- Another shuffle of the non-fatal pool, arranged so that the turn player
keeps drawing corrupted cards. -/
def c7NonFatal : List Authenticity :=
  [.corrupted, .authentic, .authentic, .authentic, .corrupted, .authentic,
   .corrupted, .authentic, .corrupted, .authentic, .corrupted, .authentic,
   .authentic, .corrupted]

/-- A generator deck from `c7NonFatal` with the fatal glitch at position 12. -/
def c7Deck : List MemoryCard :=
  generateGameDeck standardMemories c7NonFatal [5]

/-- Fallback room used only to totalize `roomAfter`; no trace reaches it. -/
def emptyRoom : FirestoreRoom :=
  { players := [], status := .waiting, order_players := [], turn := 0,
    memory_deck := [], current_card := none, table_cards := [],
    cards_drawn := 0, turn_state := .draw, selected_card_index := none,
    current_multiplier := 1, card_initiator := none,
    revealed_real_memories := [], winner := none, win_reason := none }

/-- The room reached from player A creating a room with `deck` and the given
actions all succeeding. -/
def roomAfter (deck : List MemoryCard) (acts : List Action) : FirestoreRoom :=
  match createRoom "A" deck with
  | .ok init => (run init acts).getD emptyRoom
  | .error _ => emptyRoom

/-- Player B joins, the creator starts the match, and the intro completes. -/
def lobbyActs : List Action := [.join "B", .start "A", .finishIntro]

/-- One full select-and-claim resolution by player `u` on table index `i`. -/
def resolutionPair (u : String) (i : Nat) : List Action := [.select u i, .claim u]

/-- Twelve alternating straightforward resolutions on slot 0; on
`standardDeck` they exhaust the supply with the table still full. -/
def c6PreActs : List Action := lobbyActs
  ++ resolutionPair "A" 0 ++ resolutionPair "B" 0 ++ resolutionPair "A" 0
  ++ resolutionPair "B" 0 ++ resolutionPair "A" 0 ++ resolutionPair "B" 0
  ++ resolutionPair "A" 0 ++ resolutionPair "B" 0 ++ resolutionPair "A" 0
  ++ resolutionPair "B" 0 ++ resolutionPair "A" 0 ++ resolutionPair "B" 0

/-- Eleven alternating resolutions on slot 0; on `c7Deck` the eleventh claims
the fatal glitch and finishes the match. -/
def c7Acts : List Action := lobbyActs
  ++ resolutionPair "A" 0 ++ resolutionPair "B" 0 ++ resolutionPair "A" 0
  ++ resolutionPair "B" 0 ++ resolutionPair "A" 0 ++ resolutionPair "B" 0
  ++ resolutionPair "A" 0 ++ resolutionPair "B" 0 ++ resolutionPair "A" 0
  ++ resolutionPair "B" 0 ++ resolutionPair "A" 0

/-- The playing room in the DECIDE phase: A has selected table slot 0 of the
standard deck (an authentic +1 card). -/
def decideRoom : FirestoreRoom :=
  roomAfter standardDeck (lobbyActs ++ [.select "A" 0])

/-- `decideRoom` after A rejects the selected card. -/
def rejectedRoom : FirestoreRoom :=
  roomAfter standardDeck (lobbyActs ++ [.select "A" 0, .reject "A"])

/-- `rejectedRoom` after B claims the rejected card blind. -/
def oppClaimedRoom : FirestoreRoom :=
  roomAfter standardDeck (lobbyActs ++ [.select "A" 0, .reject "A", .oppClaim "B"])

/-- One resolution, then the resolving player leaves the active match. -/
def c5Acts : List Action :=
  lobbyActs ++ [.select "A" 0, .claim "A", .leave "A"]

/-- Players map with one player at the upper threshold and the other at the
hard-coded lower threshold. -/
def c1Players : List (String × FirestorePlayer) :=
  [("A", { integrity := 10, items := [] }),
   ("B", { integrity := -10, items := [] })]

/-- Players map with one player at integrity 0 (the configured
`minIntegrity`) and the other at 5; nobody is at ±10. -/
def c2Players : List (String × FirestorePlayer) :=
  [("A", { integrity := 0, items := [] }),
   ("B", { integrity := 5, items := [] })]

/-- Players map for the amended lower-threshold law: P above the floor, Q at
-10. -/
def c2wPlayers : List (String × FirestorePlayer) :=
  [("P", { integrity := 5, items := [] }),
   ("Q", { integrity := -10, items := [] })]

/-- A 7-authentic / 6-corrupted shuffle, for a distribution with two fatal
glitches (7 + 6 + 2 = 15). -/
def c8NonFatal : List Authenticity := standardNonFatal.take 13

/-- Generator run with two fatal glitches, drawn into positions 7 and 14. -/
def c8Deck : List MemoryCard :=
  generateGameDeck standardMemories c8NonFatal [0, 7]

/-- A distribution summing to `totalCards` with 9 fatal glitches and only 6
non-fatal cards (authentic 6 / corrupted 0 / fatalGlitch 9). -/
def c8BadNonFatal : List Authenticity := List.replicate 6 .authentic

/-- Nine fatal-position draws, each choosing desired position 7. -/
def c8BadOffsets : List Nat := List.replicate 9 0

theorem Reachable.trans {s₀ s₁ s₂ : FirestoreRoom}
    (h₁ : Reachable s₀ s₁) (h₂ : Reachable s₁ s₂) : Reachable s₀ s₂ := by
  induction h₂ with
  | refl => exact h₁
  | step _ hstep ih => exact Reachable.step ih hstep

theorem run_reachable :
    ∀ (acts : List Action) (s₀ s : FirestoreRoom),
      run s₀ acts = some s → Reachable s₀ s := by
  intro acts
  induction acts with
  | nil =>
    intro s₀ s h
    simp only [run, Option.some.injEq] at h
    exact h ▸ Reachable.refl
  | cons a rest ih =>
    intro s₀ s h
    simp only [run] at h
    cases hstep : stepAction s₀ a with
    | none => rw [hstep] at h; exact absurd h (by simp)
    | some r =>
      rw [hstep] at h
      exact Reachable.trans (Reachable.step Reachable.refl hstep) (ih r s h)

/-! Characterizations of the successful transitions, read off the source
control flow. -/

theorem refreshTableCards_ok {tc : List MemoryCard} {idx : Nat}
    {deck : List MemoryCard} {drawn : Nat} {tc₂ : List MemoryCard} {d₂ : Nat}
    (h : refreshTableCards tc idx deck drawn = .ok (tc₂, d₂)) :
    idx < tc.length ∧
      ((drawn < deck.length ∧ tc₂.length = tc.length ∧ d₂ = drawn + 1) ∨
        (deck.length ≤ drawn ∧ tc₂.length = tc.length - 1 ∧ d₂ = drawn)) := by
  unfold refreshTableCards at h
  split at h
  · exact absurd h (by simp)
  · rename_i hidx
    split at h
    · rename_i hd
      simp only [Except.ok.injEq, Prod.mk.injEq] at h
      obtain ⟨h1, h2⟩ := h
      refine ⟨by omega, Or.inl ⟨hd, ?_, h2.symm⟩⟩
      rw [← h1, List.length_set]
    · rename_i hd
      simp only [Except.ok.injEq, Prod.mk.injEq] at h
      obtain ⟨h1, h2⟩ := h
      refine ⟨by omega, Or.inr ⟨by omega, ?_, h2.symm⟩⟩
      rw [← h1]
      have hlt : idx < tc.length := by omega
      simp [List.length_eraseIdx, hlt]

theorem selectCard_ok {room : FirestoreRoom} {i : Nat} {u : String}
    {r : FirestoreRoom} (h : selectCard room i u = .ok r) :
    room.status = .playing ∧ room.turn_state = .draw ∧
      room.order_players.get? room.turn = some u ∧
      i < room.table_cards.length ∧
      r = { room with
        current_card := room.table_cards.get? i
        selected_card_index := some i
        card_initiator := some u
        turn_state := .decide
        current_multiplier := 1 } := by
  unfold selectCard at h
  split at h
  · exact absurd h (by simp)
  rename_i h1
  split at h
  · exact absurd h (by simp)
  rename_i h2
  split at h
  · exact absurd h (by simp)
  rename_i h3
  split at h
  · exact absurd h (by simp)
  rename_i h4
  simp only [Except.ok.injEq] at h
  refine ⟨by simpa using h1, by simpa using h2, by simpa using h3, by omega, h.symm⟩

theorem rejectCard_ok {room : FirestoreRoom} {u : String}
    {r : FirestoreRoom} (h : rejectCard room u = .ok r) :
    room.status = .playing ∧ room.turn_state = .decide ∧
      room.card_initiator = some u ∧ room.current_card.isSome ∧
      r = { room with turn_state := .opponentDecide, current_multiplier := 3 } := by
  unfold rejectCard at h
  split at h
  · exact absurd h (by simp)
  rename_i h1
  split at h
  · exact absurd h (by simp)
  rename_i h2
  split at h
  · exact absurd h (by simp)
  rename_i h3
  cases hcc : room.current_card with
  | none => rw [hcc] at h; exact absurd h (by simp)
  | some card =>
    rw [hcc] at h
    simp only [Except.ok.injEq] at h
    exact ⟨by simpa using h1, by simpa using h2, by simpa using h3,
      by simp [hcc], h.symm⟩

theorem joinRoom_ok {room : FirestoreRoom} {u : String}
    {r : FirestoreRoom} (h : joinRoom room u = .ok r) :
    room.players.length < 2 ∧ hasPlayer room.players u = false ∧
      room.status = .waiting ∧
      r = { room with
        players := room.players ++ [(u, { integrity := 0, items := [] })]
        order_players := room.order_players ++ [u] } := by
  unfold joinRoom at h
  split at h
  · exact absurd h (by simp)
  rename_i h1
  split at h
  · exact absurd h (by simp)
  rename_i h2
  split at h
  · exact absurd h (by simp)
  rename_i h3
  simp only [Except.ok.injEq] at h
  exact ⟨by omega, by simpa using h2, by simpa using h3, h.symm⟩

theorem startGame_ok {room : FirestoreRoom} {u : String}
    {r : FirestoreRoom} (h : startGame room u = .ok r) :
    room.status = .waiting ∧ room.players.length = 2 ∧
      room.order_players.get? 0 = some u ∧
      r = { room with status := .intro } := by
  unfold startGame at h
  split at h
  · exact absurd h (by simp)
  rename_i h1
  split at h
  · exact absurd h (by simp)
  rename_i h2
  split at h
  · exact absurd h (by simp)
  rename_i h3
  simp only [Except.ok.injEq] at h
  exact ⟨by simpa using h1, by simpa using h2, by simpa using h3, h.symm⟩

theorem completeIntro_ok {room : FirestoreRoom}
    {r : FirestoreRoom} (h : completeIntro room = .ok r) :
    room.status = .intro ∧ r = { room with status := .playing } := by
  unfold completeIntro at h
  split at h
  · exact absurd h (by simp)
  rename_i h1
  simp only [Except.ok.injEq] at h
  exact ⟨by simpa using h1, h.symm⟩

theorem leaveRoom_updated {room : FirestoreRoom} {u : String}
    {r : FirestoreRoom} (h : leaveRoom room u = .roomUpdated r) :
    r = { room with
        players := room.players.filter (fun e => e.1 != u)
        order_players := room.order_players.filter (fun pid => pid != u) } ∨
      r = { room with
        players := room.players.filter (fun e => e.1 != u)
        order_players := room.order_players.filter (fun pid => pid != u)
        status := .finished } := by
  simp only [leaveRoom] at h
  split at h
  · exact absurd h (by simp)
  split at h
  · simp only [LeaveResult.roomUpdated.injEq] at h
    exact Or.inl h.symm
  · simp only [LeaveResult.roomUpdated.injEq] at h
    exact Or.inr h.symm

theorem claimCard_ok {room : FirestoreRoom} {u : String}
    {r : FirestoreRoom} (h : claimCard room u = .ok r) :
    room.status = .playing ∧ room.turn_state = .decide ∧
      room.card_initiator = some u ∧
      ∃ card tc₂ d₂,
        room.current_card = some card ∧
        refreshTableCards room.table_cards (room.selected_card_index.getD 0)
            room.memory_deck room.cards_drawn = .ok (tc₂, d₂) ∧
        r.players = addIntegrity room.players u
          (card.value * room.current_multiplier) ∧
        r.table_cards = tc₂ ∧ r.cards_drawn = d₂ ∧
        r.memory_deck = room.memory_deck ∧ r.current_card = none ∧
        r.order_players = room.order_players ∧
        (r.status = .finished ∧ r.turn_state = room.turn_state ∨
          r.status = room.status ∧ r.turn_state = .draw) := by
  simp only [claimCard] at h
  split at h
  · exact absurd h (by simp)
  rename_i h1
  split at h
  · exact absurd h (by simp)
  rename_i h2
  split at h
  · exact absurd h (by simp)
  rename_i h3
  split at h
  · exact absurd h (by simp)
  rename_i card hcc
  split at h
  · exact absurd h (by simp)
  rename_i tc₂ d₂ href
  refine ⟨by simpa using h1, by simpa using h2, by simpa using h3,
    card, tc₂, d₂, hcc, href, ?_⟩
  split at h
  · simp only [Except.ok.injEq] at h
    subst h
    exact ⟨rfl, rfl, rfl, rfl, rfl, rfl, Or.inl ⟨rfl, rfl⟩⟩
  · simp only [Except.ok.injEq] at h
    subst h
    exact ⟨rfl, rfl, rfl, rfl, rfl, rfl, Or.inr ⟨rfl, rfl⟩⟩

theorem opponentClaimCard_ok {room : FirestoreRoom} {u : String}
    {r : FirestoreRoom} (h : opponentClaimCard room u = .ok r) :
    room.status = .playing ∧ room.turn_state = .opponentDecide ∧
      room.card_initiator ≠ some u ∧ hasPlayer room.players u = true ∧
      ∃ card tc₂ d₂,
        room.current_card = some card ∧
        refreshTableCards room.table_cards (room.selected_card_index.getD 0)
            room.memory_deck room.cards_drawn = .ok (tc₂, d₂) ∧
        r.players = addIntegrity room.players u
          (card.value * room.current_multiplier) ∧
        r.table_cards = tc₂ ∧ r.cards_drawn = d₂ ∧
        r.memory_deck = room.memory_deck ∧ r.current_card = none ∧
        r.order_players = room.order_players ∧
        (r.status = .finished ∧ r.turn_state = room.turn_state ∨
          r.status = room.status ∧ r.turn_state = .draw) := by
  simp only [opponentClaimCard] at h
  split at h
  · exact absurd h (by simp)
  rename_i h1
  split at h
  · exact absurd h (by simp)
  rename_i h2
  split at h
  · exact absurd h (by simp)
  rename_i h3
  split at h
  · exact absurd h (by simp)
  rename_i h4
  split at h
  · exact absurd h (by simp)
  rename_i card hcc
  split at h
  · exact absurd h (by simp)
  rename_i tc₂ d₂ href
  refine ⟨by simpa using h1, by simpa using h2, h3,
    by simpa using h4, card, tc₂, d₂, hcc, href, ?_⟩
  split at h
  · simp only [Except.ok.injEq] at h
    subst h
    exact ⟨rfl, rfl, rfl, rfl, rfl, rfl, Or.inl ⟨rfl, rfl⟩⟩
  · simp only [Except.ok.injEq] at h
    subst h
    exact ⟨rfl, rfl, rfl, rfl, rfl, rfl, Or.inr ⟨rfl, rfl⟩⟩

theorem opponentRejectBack_ok {room : FirestoreRoom} {u : String}
    {r : FirestoreRoom} (h : opponentRejectBack room u = .ok r) :
    room.status = .playing ∧ room.turn_state = .opponentDecide ∧
      room.card_initiator ≠ some u ∧ hasPlayer room.players u = true ∧
      ∃ card initiator tc₂ d₂,
        room.current_card = some card ∧
        room.card_initiator = some initiator ∧
        refreshTableCards room.table_cards (room.selected_card_index.getD 0)
            room.memory_deck room.cards_drawn = .ok (tc₂, d₂) ∧
        r.players = addIntegrity room.players initiator
          (card.value * room.current_multiplier) ∧
        r.table_cards = tc₂ ∧ r.cards_drawn = d₂ ∧
        r.memory_deck = room.memory_deck ∧ r.current_card = none ∧
        r.order_players = room.order_players ∧
        (r.status = .finished ∧ r.turn_state = room.turn_state ∨
          r.status = room.status ∧ r.turn_state = .draw) := by
  simp only [opponentRejectBack] at h
  split at h
  · exact absurd h (by simp)
  rename_i h1
  split at h
  · exact absurd h (by simp)
  rename_i h2
  split at h
  · exact absurd h (by simp)
  rename_i h3
  split at h
  · exact absurd h (by simp)
  rename_i h4
  split at h
  · exact absurd h (by simp)
  rename_i card hcc
  split at h
  · exact absurd h (by simp)
  rename_i initiator hci
  split at h
  · exact absurd h (by simp)
  rename_i tc₂ d₂ href
  refine ⟨by simpa using h1, by simpa using h2, h3,
    by simpa using h4, card, initiator, tc₂, d₂, hcc, hci, href, ?_⟩
  split at h
  · simp only [Except.ok.injEq] at h
    subst h
    exact ⟨rfl, rfl, rfl, rfl, rfl, rfl, Or.inl ⟨rfl, rfl⟩⟩
  · simp only [Except.ok.injEq] at h
    subst h
    exact ⟨rfl, rfl, rfl, rfl, rfl, rfl, Or.inr ⟨rfl, rfl⟩⟩

theorem exceptToOption_eq_some {e : Except String FirestoreRoom}
    {r : FirestoreRoom} : exceptToOption e = some r ↔ e = .ok r := by
  cases e <;> simp [exceptToOption]

theorem createRoom_ok {u : String} {deck : List MemoryCard} {r : FirestoreRoom}
    (h : createRoom u deck = .ok r) :
    3 ≤ deck.length ∧
      r = { players := [(u, { integrity := 0, items := [] })]
            status := .waiting
            order_players := [u]
            turn := 0
            memory_deck := deck
            current_card := none
            table_cards := deck.take 3
            cards_drawn := 3
            turn_state := .draw
            selected_card_index := none
            current_multiplier := 1
            card_initiator := none
            revealed_real_memories := []
            winner := none
            win_reason := none } := by
  unfold createRoom at h
  split at h
  · exact absurd h (by simp)
  rename_i tableCards htc
  unfold initializeTableCards at htc
  split at htc
  · exact absurd htc (by simp)
  rename_i hlen
  simp only [Except.ok.injEq] at htc h
  subst htc
  exact ⟨by omega, h.symm⟩

theorem tableInv_step {s t : FirestoreRoom} {a : Action}
    (hinv : TableInv s) (h : stepAction s a = some t) : TableInv t := by
  obtain ⟨ht3, hdl, hshort⟩ := hinv
  cases a with
  | join u =>
    rw [stepAction, exceptToOption_eq_some] at h
    obtain ⟨-, -, -, rfl⟩ := joinRoom_ok h
    exact ⟨ht3, hdl, hshort⟩
  | leave u =>
    rw [stepAction] at h
    cases hl : leaveRoom s u with
    | roomDeleted => rw [hl] at h; exact absurd h (by simp)
    | roomUpdated r =>
      rw [hl] at h
      simp only [Option.some.injEq] at h
      subst h
      rcases leaveRoom_updated hl with rfl | rfl
      · exact ⟨ht3, hdl, hshort⟩
      · exact ⟨ht3, hdl, hshort⟩
  | start u =>
    rw [stepAction, exceptToOption_eq_some] at h
    obtain ⟨-, -, -, rfl⟩ := startGame_ok h
    exact ⟨ht3, hdl, hshort⟩
  | finishIntro =>
    rw [stepAction, exceptToOption_eq_some] at h
    obtain ⟨-, rfl⟩ := completeIntro_ok h
    exact ⟨ht3, hdl, hshort⟩
  | select u i =>
    rw [stepAction, exceptToOption_eq_some] at h
    obtain ⟨-, -, -, -, rfl⟩ := selectCard_ok h
    exact ⟨ht3, hdl, hshort⟩
  | reject u =>
    rw [stepAction, exceptToOption_eq_some] at h
    obtain ⟨-, -, -, -, rfl⟩ := rejectCard_ok h
    exact ⟨ht3, hdl, hshort⟩
  | claim u =>
    rw [stepAction, exceptToOption_eq_some] at h
    obtain ⟨-, -, -, card, tc₂, d₂, -, href, -, htc, hcd, hmd, -, -, -⟩ :=
      claimCard_ok h
    obtain ⟨hidx, hcase⟩ := refreshTableCards_ok href
    rw [TableInv, htc, hcd, hmd]
    rcases hcase with ⟨hlt, hlen, hd⟩ | ⟨hge, hlen, hd⟩ <;>
      refine ⟨by omega, by omega, fun hs => ?_⟩ <;> omega
  | oppClaim u =>
    rw [stepAction, exceptToOption_eq_some] at h
    obtain ⟨-, -, -, -, card, tc₂, d₂, -, href, -, htc, hcd, hmd, -, -, -⟩ :=
      opponentClaimCard_ok h
    obtain ⟨hidx, hcase⟩ := refreshTableCards_ok href
    rw [TableInv, htc, hcd, hmd]
    rcases hcase with ⟨hlt, hlen, hd⟩ | ⟨hge, hlen, hd⟩ <;>
      refine ⟨by omega, by omega, fun hs => ?_⟩ <;> omega
  | oppRejectBack u =>
    rw [stepAction, exceptToOption_eq_some] at h
    obtain ⟨-, -, -, -, card, initiator, tc₂, d₂, -, -, href, -, htc, hcd, hmd,
      -, -, -⟩ := opponentRejectBack_ok h
    obtain ⟨hidx, hcase⟩ := refreshTableCards_ok href
    rw [TableInv, htc, hcd, hmd]
    rcases hcase with ⟨hlt, hlen, hd⟩ | ⟨hge, hlen, hd⟩ <;>
      refine ⟨by omega, by omega, fun hs => ?_⟩ <;> omega

theorem reachable_tableInv {init s : FirestoreRoom}
    (h0 : TableInv init) (h : Reachable init s) : TableInv s := by
  induction h with
  | refl => exact h0
  | step _ hstep ih => exact tableInv_step ih hstep

theorem createRoom_tableInv {u : String} {deck : List MemoryCard}
    {r : FirestoreRoom} (h : createRoom u deck = .ok r) : TableInv r := by
  obtain ⟨hlen, rfl⟩ := createRoom_ok h
  refine ⟨by simp only [List.length_take]; omega, by simpa using hlen, fun hs => ?_⟩
  simp only [List.length_take] at hs
  omega

theorem cardInv_step {s t : FirestoreRoom} {a : Action}
    (hinv : CardInv s) (h : stepAction s a = some t) : CardInv t := by
  cases a with
  | join u =>
    rw [stepAction, exceptToOption_eq_some] at h
    obtain ⟨-, -, hw, rfl⟩ := joinRoom_ok h
    exact hinv
  | leave u =>
    rw [stepAction] at h
    cases hl : leaveRoom s u with
    | roomDeleted => rw [hl] at h; exact absurd h (by simp)
    | roomUpdated r =>
      rw [hl] at h
      simp only [Option.some.injEq] at h
      subst h
      rcases leaveRoom_updated hl with rfl | rfl
      · exact hinv
      · intro habs; exact absurd rfl habs
  | start u =>
    rw [stepAction, exceptToOption_eq_some] at h
    obtain ⟨hw, -, -, rfl⟩ := startGame_ok h
    intro _
    exact hinv (by simp [hw])
  | finishIntro =>
    rw [stepAction, exceptToOption_eq_some] at h
    obtain ⟨hi, rfl⟩ := completeIntro_ok h
    intro _
    exact hinv (by simp [hi])
  | select u i =>
    rw [stepAction, exceptToOption_eq_some] at h
    obtain ⟨hp, -, -, hlt, rfl⟩ := selectCard_ok h
    intro _
    constructor
    · intro _; exact Or.inl rfl
    · intro _
      simp only
      rw [Option.isSome_iff_exists]
      exact ⟨s.table_cards.get ⟨i, hlt⟩, (List.get?_eq_get hlt)⟩
  | reject u =>
    rw [stepAction, exceptToOption_eq_some] at h
    obtain ⟨hp, -, -, hsome, rfl⟩ := rejectCard_ok h
    intro _
    exact ⟨fun _ => Or.inr rfl, fun _ => hsome⟩
  | claim u =>
    rw [stepAction, exceptToOption_eq_some] at h
    obtain ⟨hp, -, -, card, tc₂, d₂, -, -, -, -, -, -, hcur, -, hbr⟩ :=
      claimCard_ok h
    rcases hbr with ⟨hfin, -⟩ | ⟨hst, hts⟩
    · intro habs; exact absurd hfin habs
    · intro _
      rw [hcur, hts]
      simp
  | oppClaim u =>
    rw [stepAction, exceptToOption_eq_some] at h
    obtain ⟨hp, -, -, -, card, tc₂, d₂, -, -, -, -, -, -, hcur, -, hbr⟩ :=
      opponentClaimCard_ok h
    rcases hbr with ⟨hfin, -⟩ | ⟨hst, hts⟩
    · intro habs; exact absurd hfin habs
    · intro _
      rw [hcur, hts]
      simp
  | oppRejectBack u =>
    rw [stepAction, exceptToOption_eq_some] at h
    obtain ⟨hp, -, -, -, card, initiator, tc₂, d₂, -, -, -, -, -, -, -, hcur,
      -, hbr⟩ := opponentRejectBack_ok h
    rcases hbr with ⟨hfin, -⟩ | ⟨hst, hts⟩
    · intro habs; exact absurd hfin habs
    · intro _
      rw [hcur, hts]
      simp

theorem reachable_cardInv {init s : FirestoreRoom}
    (h0 : CardInv init) (h : Reachable init s) : CardInv s := by
  induction h with
  | refl => exact h0
  | step _ hstep ih => exact cardInv_step ih hstep

theorem createRoom_cardInv {u : String} {deck : List MemoryCard}
    {r : FirestoreRoom} (h : createRoom u deck = .ok r) : CardInv r := by
  obtain ⟨-, rfl⟩ := createRoom_ok h
  intro _
  simp

theorem lookup_addIntegrity (players : List (String × FirestorePlayer))
    (pid q : String) (pts : Int) :
    (addIntegrity players pid pts).lookup q =
      (players.lookup q).map
        (fun p => if q = pid then { p with integrity := p.integrity + pts } else p) := by
  induction players with
  | nil => simp [addIntegrity]
  | cons e rest ih =>
    obtain ⟨k, p⟩ := e
    by_cases hq : q = k
    · subst hq
      by_cases hk : q = pid
      · subst hk
        have hhead : addIntegrity ((q, p) :: rest) q pts
            = (q, { p with integrity := p.integrity + pts })
              :: addIntegrity rest q pts := by
          simp [addIntegrity]
        rw [hhead]
        simp only [List.lookup, beq_self_eq_true]
        simp
      · have hhead : addIntegrity ((q, p) :: rest) pid pts
            = (q, p) :: addIntegrity rest pid pts := by
          simp [addIntegrity, hk]
        rw [hhead]
        simp only [List.lookup, beq_self_eq_true]
        simp [hk]
    · have hb : (q == k) = false := by simp [hq]
      by_cases hk : k = pid
      · subst hk
        have hhead : addIntegrity ((k, p) :: rest) k pts
            = (k, { p with integrity := p.integrity + pts })
              :: addIntegrity rest k pts := by
          simp [addIntegrity]
        rw [hhead]
        simp only [List.lookup, hb]
        exact ih
      · have hhead : addIntegrity ((k, p) :: rest) pid pts
            = (k, p) :: addIntegrity rest pid pts := by
          simp [addIntegrity, hk]
        rw [hhead]
        simp only [List.lookup, hb]
        exact ih

theorem integrityOf_addIntegrity_self
    (players : List (String × FirestorePlayer)) (pid : String) (pts : Int)
    (hmem : hasPlayer players pid = true) :
    integrityOf (addIntegrity players pid pts) pid
      = integrityOf players pid + pts := by
  unfold integrityOf
  rw [lookup_addIntegrity]
  unfold hasPlayer at hmem
  cases hl : players.lookup pid with
  | none => rw [hl] at hmem; simp at hmem
  | some p => simp

theorem integrityOf_addIntegrity_other
    (players : List (String × FirestorePlayer)) (pid q : String) (pts : Int)
    (hne : q ≠ pid) :
    integrityOf (addIntegrity players pid pts) q = integrityOf players q := by
  unfold integrityOf
  rw [lookup_addIntegrity]
  cases hl : players.lookup q with
  | none => simp
  | some p => simp [hne]

/-- C6 (amended): after any successful resolving transition (claim,
opponentClaim, opponentRejectBack) from a reachable state, the new
`tableCards` length equals `min 3 (remaining supply + previous table size
- 1)` — one card is consumed from the table — and `cardsDrawn` increases by
exactly one when undrawn cards remained, staying unchanged otherwise. -/
theorem c6_table_refresh_law {u : String} {deck : List MemoryCard}
    {init s t : FirestoreRoom} {a : Action}
    (hc : createRoom u deck = .ok init) (hr : Reachable init s)
    (ha : isResolving a = true) (hstep : stepAction s a = some t) :
    t.table_cards.length =
        min 3 (s.memory_deck.length - s.cards_drawn + s.table_cards.length - 1) ∧
      (s.cards_drawn < s.memory_deck.length → t.cards_drawn = s.cards_drawn + 1) ∧
      (s.memory_deck.length ≤ s.cards_drawn → t.cards_drawn = s.cards_drawn) := by
  obtain ⟨ht3, hdl, hshort⟩ := reachable_tableInv (createRoom_tableInv hc) hr
  cases a with
  | join u => simp [isResolving] at ha
  | leave u => simp [isResolving] at ha
  | start u => simp [isResolving] at ha
  | finishIntro => simp [isResolving] at ha
  | select u i => simp [isResolving] at ha
  | reject u => simp [isResolving] at ha
  | claim v =>
    rw [stepAction, exceptToOption_eq_some] at hstep
    obtain ⟨-, -, -, card, tc₂, d₂, -, href, -, htc, hcd, -, -, -, -⟩ :=
      claimCard_ok hstep
    obtain ⟨hidx, hcase⟩ := refreshTableCards_ok href
    rw [htc, hcd]
    rcases hcase with ⟨hlt, hlen, hd⟩ | ⟨hge, hlen, hd⟩
    · have hn3 : s.table_cards.length = 3 := by
        by_cases hlt3 : s.table_cards.length < 3
        · have := hshort hlt3; omega
        · omega
      refine ⟨by omega, fun _ => by omega, fun hcon => by omega⟩
    · refine ⟨by omega, fun hcon => by omega, fun _ => by omega⟩
  | oppClaim v =>
    rw [stepAction, exceptToOption_eq_some] at hstep
    obtain ⟨-, -, -, -, card, tc₂, d₂, -, href, -, htc, hcd, -, -, -, -⟩ :=
      opponentClaimCard_ok hstep
    obtain ⟨hidx, hcase⟩ := refreshTableCards_ok href
    rw [htc, hcd]
    rcases hcase with ⟨hlt, hlen, hd⟩ | ⟨hge, hlen, hd⟩
    · have hn3 : s.table_cards.length = 3 := by
        by_cases hlt3 : s.table_cards.length < 3
        · have := hshort hlt3; omega
        · omega
      refine ⟨by omega, fun _ => by omega, fun hcon => by omega⟩
    · refine ⟨by omega, fun hcon => by omega, fun _ => by omega⟩
  | oppRejectBack v =>
    rw [stepAction, exceptToOption_eq_some] at hstep
    obtain ⟨-, -, -, -, card, initiator, tc₂, d₂, -, -, href, -, htc, hcd, -,
      -, -, -⟩ := opponentRejectBack_ok hstep
    obtain ⟨hidx, hcase⟩ := refreshTableCards_ok href
    rw [htc, hcd]
    rcases hcase with ⟨hlt, hlen, hd⟩ | ⟨hge, hlen, hd⟩
    · have hn3 : s.table_cards.length = 3 := by
        by_cases hlt3 : s.table_cards.length < 3
        · have := hshort hlt3; omega
        · omega
      refine ⟨by omega, fun _ => by omega, fun hcon => by omega⟩
    · refine ⟨by omega, fun hcon => by omega, fun _ => by omega⟩

theorem spliceInsert_length (l : List α) (pos : Nat) (a : α) :
    (spliceInsert l pos a).length = l.length + 1 := by
  simp [spliceInsert, List.length_take, List.length_drop]
  omega

theorem spliceInsert_get?_of_lt {l : List α} {pos i : Nat} {a : α}
    (hpos : i < pos) (hlen : i < l.length) :
    (spliceInsert l pos a).get? i = l.get? i := by
  rw [spliceInsert, List.get?_append, List.get?_take hpos]
  rw [List.length_take]
  omega

/-- Invariant of the fatal-insertion loop: the prefix below `minFatalPosition`
never holds a fatal glitch, and the list stays at least that long. -/
theorem insertFatals_invariant (rs : List Nat) :
    ∀ base : List Authenticity,
      minFatalPosition ≤ base.length →
      (∀ j, j < minFatalPosition → base.get? j ≠ some .fatalGlitch) →
      minFatalPosition ≤ (insertFatals base rs).length ∧
        ∀ j, j < minFatalPosition →
          (insertFatals base rs).get? j ≠ some .fatalGlitch := by
  induction rs with
  | nil => intro base hlen hnf; exact ⟨hlen, hnf⟩
  | cons r rest ih =>
    intro base hlen hnf
    have hstep : insertFatals base (r :: rest)
        = insertFatals (spliceInsert base (minFatalPosition + r) .fatalGlitch) rest := by
      simp [insertFatals]
    rw [hstep]
    refine ih _ ?_ ?_
    · rw [spliceInsert_length]; omega
    · intro j hj
      rw [spliceInsert_get?_of_lt (by omega) (by omega)]
      exact hnf j hj

theorem zipWith_get?_mk {ms : List String} {as : List Authenticity} {i : Nat}
    {c : MemoryCard}
    (h : (List.zipWith
        (fun m a => { memory := m, authenticity := a, value := pointValue a })
        ms as).get? i = some c) :
    ∃ a, as.get? i = some a ∧ c.authenticity = a := by
  induction ms generalizing as i with
  | nil => simp at h
  | cons m ms ih =>
    cases as with
    | nil => simp at h
    | cons a as =>
      cases i with
      | zero =>
        simp only [List.zipWith, List.get?] at h
        cases h
        exact ⟨a, rfl, rfl⟩
      | succ n =>
        simp only [List.zipWith, List.get?] at h ⊢
        exact ih h

/-! Claim theorems. -/

/-- C1 (counterexample): with A at +10 and B at -10 in order [A, B], the
evaluator does report A as winner, but with the literal reason string
`reached_10_points`, not `reached_upper_threshold` as the claim states. -/
theorem c1_counterexample :
    10 ≤ integrityOf c1Players "A" ∧ integrityOf c1Players "B" ≤ -10 ∧
      (checkVictoryCondition c1Players ["A", "B"]).winnerId = some "A" ∧
      (checkVictoryCondition c1Players ["A", "B"]).reason
        ≠ "reached_upper_threshold" := by
  decide

/-- C1 (amended): for every players map and two-player order list in which
one player is at or above +10 and the other at or below -10 simultaneously,
`checkVictoryCondition` reports the upper-threshold player as the winner with
reason `reached_10_points`, because the upper-threshold scan over
`orderPlayers` runs before the lower-threshold scan. -/
theorem c1_upper_priority (players : List (String × FirestorePlayer))
    (p q : String) (ord : List String)
    (hord : ord = [p, q] ∨ ord = [q, p])
    (hp : 10 ≤ integrityOf players p)
    (hq : integrityOf players q ≤ -10) :
    checkVictoryCondition players ord =
      { hasWinner := true, winnerId := some p, reason := "reached_10_points" } := by
  have hq10 : ¬ (10 ≤ integrityOf players q) := by omega
  rcases hord with rfl | rfl
  · unfold checkVictoryCondition
    rw [List.find?_cons_of_pos _ (by simpa using hp)]
  · unfold checkVictoryCondition
    rw [List.find?_cons_of_neg _ (by simpa using hq10),
      List.find?_cons_of_pos _ (by simpa using hp)]

theorem c1_upper_priority_witness :
    checkVictoryCondition c1Players ["B", "A"] =
      { hasWinner := true, winnerId := some "A", reason := "reached_10_points" } :=
  c1_upper_priority c1Players "A" "B" ["B", "A"] (Or.inr rfl)
    (by decide) (by decide)

/-- C2 (counterexample): with A at integrity 0 — the configured
`minIntegrity` lower threshold the claim refers to — and B at 5, the
evaluator reports no winner at all: `checkVictoryCondition` hard-codes -10 as
the losing threshold and ignores `GAME_CONFIG.winConditions.minIntegrity`. -/
theorem c2_counterexample :
    integrityOf c2Players "A" ≤ minIntegrity ∧
      integrityOf c2Players "A" < 10 ∧ integrityOf c2Players "B" < 10 ∧
      checkVictoryCondition c2Players ["A", "B"]
        = { hasWinner := false, winnerId := none, reason := "" } := by
  decide

/-- C2 (amended): for every players map and two-player order list in which no
player is at or above +10 and one player is at or below the hard-coded lower
threshold -10 (the other being strictly above it), `checkVictoryCondition`
declares the other player the winner with reason `opponent_defeated`. -/
theorem c2_lower_threshold (players : List (String × FirestorePlayer))
    (p q : String) (ord : List String)
    (hord : ord = [p, q] ∨ ord = [q, p])
    (hp10 : integrityOf players p < 10)
    (hq10 : integrityOf players q < 10)
    (hpfloor : -10 < integrityOf players p)
    (hq : integrityOf players q ≤ -10) :
    checkVictoryCondition players ord =
      { hasWinner := true, winnerId := some p, reason := "opponent_defeated" } := by
  have hpq : p ≠ q := by
    intro h
    rw [h] at hpfloor
    omega
  have hup_p : ¬ (10 ≤ integrityOf players p) := by omega
  have hup_q : ¬ (10 ≤ integrityOf players q) := by omega
  have hlow_p : ¬ (integrityOf players p ≤ -10) := by omega
  have hbeq : (p != q) = true := by simp [hpq]
  rcases hord with rfl | rfl
  · unfold checkVictoryCondition
    rw [List.find?_cons_of_neg _ (by simpa using hup_p),
      List.find?_cons_of_neg _ (by simpa using hup_q),
      List.find?_nil,
      List.find?_cons_of_neg _ (by simpa using hlow_p),
      List.find?_cons_of_pos _ (by simpa using hq)]
    simp only [List.find?]
    rw [hbeq]
  · unfold checkVictoryCondition
    rw [List.find?_cons_of_neg _ (by simpa using hup_q),
      List.find?_cons_of_neg _ (by simpa using hup_p),
      List.find?_nil,
      List.find?_cons_of_pos _ (by simpa using hq)]
    simp only [List.find?, bne_self_eq_false]
    rw [hbeq]

theorem c2_lower_threshold_witness :
    checkVictoryCondition c2wPlayers ["P", "Q"] =
      { hasWinner := true, winnerId := some "P", reason := "opponent_defeated" } :=
  c2_lower_threshold c2wPlayers "P" "Q" ["P", "Q"] (Or.inl rfl)
    (by decide) (by decide) (by decide) (by decide)

/-- C3: for a current card of value v selected in the DECIDE phase, a
successful `rejectCard` changes only `turn_state` (to OPPONENT_DECIDE) and
`current_multiplier` (to 3) — no integrity change, no turn advance — and the
following successful `opponentClaimCard` adds exactly 3·v to the claiming
opponent's integrity and nothing to the initiator's. -/
theorem c3_multiplier_law {room r1 r2 : FirestoreRoom} {u v : String}
    {card : MemoryCard} (hcc : room.current_card = some card)
    (h1 : rejectCard room u = .ok r1)
    (h2 : opponentClaimCard r1 v = .ok r2) :
    r1 = { room with turn_state := .opponentDecide, current_multiplier := 3 } ∧
      integrityOf r2.players v = integrityOf room.players v + card.value * 3 ∧
      integrityOf r2.players u = integrityOf room.players u := by
  obtain ⟨hst, hts, hci, hsome, hr1⟩ := rejectCard_ok h1
  subst hr1
  obtain ⟨-, -, hciu, hmem, card2, tc₂, d₂, hcc2, -, hpl, -, -, -, -, -, -⟩ :=
    opponentClaimCard_ok h2
  simp only at hcc2 hciu hmem hpl
  rw [hcc] at hcc2
  cases hcc2
  have huv : u ≠ v := by
    intro h
    rw [hci, h] at hciu
    exact hciu rfl
  refine ⟨rfl, ?_, ?_⟩
  · rw [hpl]
    exact integrityOf_addIntegrity_self room.players v (card.value * 3) hmem
  · rw [hpl]
    exact integrityOf_addIntegrity_other room.players v u (card.value * 3) huv

theorem c3_multiplier_law_witness :
    rejectedRoom
        = { decideRoom with turn_state := .opponentDecide, current_multiplier := 3 } ∧
      integrityOf oppClaimedRoom.players "B"
        = integrityOf decideRoom.players "B" + (mkCard "m0" .authentic).value * 3 ∧
      integrityOf oppClaimedRoom.players "A" = integrityOf decideRoom.players "A" :=
  c3_multiplier_law (by decide) (by decide) (by decide)

/-- C4 (counterexample): `createRoom` with the standard generated deck
already stores the 15-card deck, the 3-card table and `cards_drawn = 3` on
the `waiting` document, and `completeIntro` on an intro-phase room changes
nothing but the status — so deck generation and table initialization do *not*
happen on the intro→playing transition. -/
theorem c4_counterexample :
    (createRoom "A" standardDeck).toOption.map
        (fun r => (r.status, r.memory_deck.length, r.table_cards.length,
          r.cards_drawn))
      = some (.waiting, 15, 3, 3) ∧
      completeIntro (roomAfter standardDeck [.join "B", .start "A"])
        = .ok { roomAfter standardDeck [.join "B", .start "A"] with
            status := .playing } := by
  constructor
  · decide
  · decide

/-- C4 (amended): a match is created in status `waiting` with one player, but
with the deck already generated and the table already initialized:
`createRoom` itself invokes the Deck Generator and Table Manager initialize,
storing `memory_deck`, the first 3 cards as `table_cards` and
`cards_drawn = 3`; `completeIntro` (intro→playing) only changes the status
field. -/
theorem c4_creation_populates {u : String} {deck : List MemoryCard}
    {room : FirestoreRoom} (h : createRoom u deck = .ok room) :
    room.status = .waiting ∧
      room.players = [(u, { integrity := 0, items := [] })] ∧
      room.order_players = [u] ∧
      room.memory_deck = deck ∧
      room.table_cards = deck.take 3 ∧
      room.cards_drawn = 3 ∧
      (∀ r t : FirestoreRoom, completeIntro r = .ok t →
        t = { r with status := .playing }) := by
  obtain ⟨hlen, rfl⟩ := createRoom_ok h
  exact ⟨rfl, rfl, rfl, rfl, rfl, rfl, fun r t ht => (completeIntro_ok ht).2⟩

theorem c4_creation_populates_witness :
    (roomAfter standardDeck []).status = .waiting ∧
      (roomAfter standardDeck []).memory_deck = standardDeck ∧
      (roomAfter standardDeck []).table_cards = standardDeck.take 3 ∧
      (roomAfter standardDeck []).cards_drawn = 3 := by
  have h := c4_creation_populates
    (show createRoom "A" standardDeck = .ok (roomAfter standardDeck []) by decide)
  exact ⟨h.1, h.2.2.2.1, h.2.2.2.2.1, h.2.2.2.2.2.1⟩

/-- C5 (code bug): `turn` can leave the bounds of `orderPlayers`. From a
fresh two-player match, one resolution advances `turn` to 1; when player A
then leaves the still-active match, `leaveRoom` shrinks `order_players` to
["B"] but never touches `turn`, leaving `turn = 1` with only one order entry
— not a valid index, contradicting the invariant the claim states. -/
theorem c5_leave_breaks_turn_bound :
    createRoom "A" standardDeck = .ok (roomAfter standardDeck []) ∧
      run (roomAfter standardDeck []) c5Acts = some (roomAfter standardDeck c5Acts) ∧
      (roomAfter standardDeck c5Acts).status = .playing ∧
      (roomAfter standardDeck c5Acts).order_players = ["B"] ∧
      (roomAfter standardDeck c5Acts).turn = 1 ∧
      ¬ (roomAfter standardDeck c5Acts).turn
          < (roomAfter standardDeck c5Acts).order_players.length := by
  refine ⟨by decide, by decide, by decide, by decide, by decide, by decide⟩

/-- C6 (counterexample): a reachable state with a full table and an exhausted
deck (after twelve resolutions of the standard deck). One more successful
claim leaves 2 table cards, but `min 3 (remaining supply + previous table
size)` is `min 3 (0 + 3) = 3` — the claim's formula, with both quantities
read before the transition, counts the consumed card twice. -/
theorem c6_counterexample :
    (roomAfter standardDeck c6PreActs).status = .playing ∧
      (roomAfter standardDeck c6PreActs).table_cards.length = 3 ∧
      (roomAfter standardDeck c6PreActs).memory_deck.length
        = (roomAfter standardDeck c6PreActs).cards_drawn ∧
      (roomAfter standardDeck (c6PreActs ++ resolutionPair "A" 1)).table_cards.length
        = 2 ∧
      2 ≠ min 3 (((roomAfter standardDeck c6PreActs).memory_deck.length
          - (roomAfter standardDeck c6PreActs).cards_drawn)
        + (roomAfter standardDeck c6PreActs).table_cards.length) := by
  refine ⟨by decide, by decide, by decide, by decide, by decide⟩

theorem c6_table_refresh_law_witness :
    stepAction decideRoom (Action.claim "A")
        = some (roomAfter standardDeck (lobbyActs ++ resolutionPair "A" 0)) ∧
      (roomAfter standardDeck (lobbyActs ++ resolutionPair "A" 0)).table_cards.length
        = min 3 (decideRoom.memory_deck.length - decideRoom.cards_drawn
            + decideRoom.table_cards.length - 1) ∧
      (roomAfter standardDeck (lobbyActs ++ resolutionPair "A" 0)).cards_drawn
        = decideRoom.cards_drawn + 1 := by
  have h := c6_table_refresh_law
    (show createRoom "A" standardDeck = .ok (roomAfter standardDeck []) by decide)
    (run_reachable (lobbyActs ++ [.select "A" 0]) (roomAfter standardDeck [])
      decideRoom (by decide))
    (show isResolving (Action.claim "A") = true by decide)
    (show stepAction decideRoom (Action.claim "A")
        = some (roomAfter standardDeck (lobbyActs ++ resolutionPair "A" 0)) by decide)
  exact ⟨by decide, h.1, h.2.1 (by decide)⟩

/-- C7 (counterexample): a winning resolution never resets `turn_state`. On
`c7Deck`, eleven straightforward resolutions end with A claiming the fatal
glitch; the reachable finished state has `turn_state = decide` while
`currentCard` is cleared — the claimed equivalence fails there. -/
theorem c7_counterexample :
    (roomAfter c7Deck c7Acts).status = .finished ∧
      (roomAfter c7Deck c7Acts).turn_state = .decide ∧
      (roomAfter c7Deck c7Acts).current_card = none ∧
      (roomAfter c7Deck c7Acts).winner = some "B" ∧
      (roomAfter c7Deck c7Acts).win_reason = some "opponent_defeated" := by
  refine ⟨by decide, by decide, by decide, by decide, by decide⟩

/-- C7 (amended): for every reachable state whose status is not `finished`,
`currentCard` is non-none exactly when `turnState` is `decide` or
`opponentDecide`: selectCard is the only transition setting it (entering
decide), reject keeps it while entering opponentDecide, and every resolving
transition clears it when returning to draw. In states finished by a winning
resolution `turn_state` keeps its pre-resolution value while the card is
cleared, so the equivalence is restricted to non-finished states. -/
theorem c7_card_iff_deciding {u : String} {deck : List MemoryCard}
    {init s : FirestoreRoom} (hc : createRoom u deck = .ok init)
    (hr : Reachable init s) (hs : s.status ≠ .finished) :
    s.current_card ≠ none ↔
      (s.turn_state = .decide ∨ s.turn_state = .opponentDecide) := by
  have h := reachable_cardInv (createRoom_cardInv hc) hr hs
  rw [Option.ne_none_iff_isSome]
  exact h

theorem c7_card_iff_deciding_witness :
    ((roomAfter c7Deck (lobbyActs ++ [Action.select "A" 0])).current_card ≠ none ↔
      ((roomAfter c7Deck (lobbyActs ++ [Action.select "A" 0])).turn_state = .decide ∨
        (roomAfter c7Deck (lobbyActs ++ [Action.select "A" 0])).turn_state
          = .opponentDecide)) ∧
      (roomAfter c7Deck (lobbyActs ++ [Action.select "A" 0])).current_card ≠ none := by
  have h := c7_card_iff_deciding
    (show createRoom "A" c7Deck = .ok (roomAfter c7Deck []) by decide)
    (run_reachable (lobbyActs ++ [Action.select "A" 0]) (roomAfter c7Deck [])
      (roomAfter c7Deck (lobbyActs ++ [Action.select "A" 0])) (by decide))
    (by decide)
  exact ⟨h, h.mpr (Or.inl (by decide))⟩

/-- C8 (counterexample): with a distribution that sums to `totalCards` but
has 9 fatal glitches and only 6 non-fatal cards, every position draw is in
the legal range (desired position 7), yet `splice` clamps the first insertion
to the end of the 6-element list, so the final deck carries a fatal glitch at
position 6 < `minFatalPosition`. -/
theorem c8_counterexample :
    c8BadNonFatal.length + c8BadOffsets.length = totalCards ∧
      (∀ r ∈ c8BadOffsets, r < totalCards - minFatalPosition) ∧
      ((generateGameDeck standardMemories c8BadNonFatal c8BadOffsets).get? 6).map
          MemoryCard.authenticity = some .fatalGlitch ∧
      6 < minFatalPosition := by
  refine ⟨by decide, by decide, by decide, by decide⟩

/-- C8 (amended): in every deck the generator returns, each fatal-glitch card
sits at a position at or past `minFatalPosition` (7), also when the
distribution holds several fatal glitches inserted at independently chosen
positions — provided the non-fatal pool has at least `minFatalPosition`
entries (at most 8 fatal glitches), so that the splice insertions cannot be
clamped below the minimum. -/
theorem c8_fatal_positions {selectedMemories : List String}
    {shuffledNonFatal : List Authenticity} {randomOffsets : List Nat}
    (hlen : minFatalPosition ≤ shuffledNonFatal.length)
    (hnf : ∀ a ∈ shuffledNonFatal, a ≠ .fatalGlitch) :
    ∀ i c,
      (generateGameDeck selectedMemories shuffledNonFatal randomOffsets).get? i
          = some c →
        c.authenticity = .fatalGlitch → minFatalPosition ≤ i := by
  intro i c hget hfatal
  by_contra hlt
  push_neg at hlt
  simp only [generateGameDeck] at hget
  obtain ⟨a, hai, hca⟩ := zipWith_get?_mk hget
  have hinv := insertFatals_invariant randomOffsets shuffledNonFatal hlen
    (fun j _ hj => hnf _ (List.get?_mem hj) rfl)
  have hafatal : a = .fatalGlitch := hca.symm.trans hfatal
  exact hinv.2 i hlt (hafatal ▸ hai)

theorem c8_fatal_positions_witness :
    c8NonFatal.length = 13 ∧
      ((c8Deck.get? 7).map MemoryCard.authenticity = some .fatalGlitch ∧
        (c8Deck.get? 14).map MemoryCard.authenticity = some .fatalGlitch) ∧
      minFatalPosition ≤ 7 := by
  refine ⟨by decide, ⟨by decide, by decide⟩, ?_⟩
  exact @c8_fatal_positions standardMemories c8NonFatal [0, 7] (by decide)
    (by decide) 7 (mkCard "m7" .fatalGlitch) (by decide) (by decide)

/-- C9: once a claim has resolved and `turn_state` is back to `draw`, a
second `claimCard` by the same player fails the `turn_state must be decide`
validation with the interpolated error message; the Firestore transaction
throws before any write, so the failed call leaves the document at the first
call's result. -/
theorem c9_duplicate_claim_rejected {s t : FirestoreRoom} {u : String}
    (h : claimCard s u = .ok t) (hts : t.turn_state = .draw) :
    claimCard t u
      = .error "No puedes reclamar una carta en este momento. Estado actual: draw" := by
  obtain ⟨hst, hsts, -, card, tc₂, d₂, -, -, -, -, -, -, -, -, hbr⟩ :=
    claimCard_ok h
  rcases hbr with ⟨hfin, hts2⟩ | ⟨hst2, -⟩
  · rw [hts2, hsts] at hts
    cases hts
  · unfold claimCard
    rw [if_neg (show ¬ t.status ≠ .playing by simp [hst2, hst])]
    rw [if_pos (show t.turn_state ≠ .decide by simp [hts])]
    rw [hts]
    decide

theorem c9_duplicate_claim_rejected_witness :
    claimCard (roomAfter standardDeck (lobbyActs ++ resolutionPair "A" 0)) "A"
      = .error "No puedes reclamar una carta en este momento. Estado actual: draw" :=
  c9_duplicate_claim_rejected
    (show claimCard decideRoom "A"
        = .ok (roomAfter standardDeck (lobbyActs ++ resolutionPair "A" 0)) by decide)
    (by decide)

/-- C10: `joinRoom` fails — aborting the transaction, so the room document is
unchanged — when the room already has 2 players, when the joining player is
already a key of the players map, or when the status is not `waiting` (the
checks run in that order); otherwise it adds the player with integrity 0 and
empty items and appends the id to the end of `order_players`. -/
theorem c10_joinRoom_spec (room : FirestoreRoom) (u : String) :
    (2 ≤ room.players.length →
      joinRoom room u = .error "La sala está llena (máximo 2 jugadores).") ∧
    (room.players.length < 2 → hasPlayer room.players u = true →
      joinRoom room u = .error "Ya estás en esta sala.") ∧
    (room.players.length < 2 → hasPlayer room.players u = false →
      room.status ≠ .waiting →
      joinRoom room u = .error "La partida ya ha comenzado.") ∧
    (room.players.length < 2 → hasPlayer room.players u = false →
      room.status = .waiting →
      joinRoom room u = .ok { room with
        players := room.players ++ [(u, { integrity := 0, items := [] })]
        order_players := room.order_players ++ [u] }) := by
  refine ⟨fun hfull => ?_, fun hn hmem => ?_, fun hn hmem hst => ?_,
    fun hn hmem hst => ?_⟩
  · unfold joinRoom
    rw [if_pos hfull]
  · unfold joinRoom
    rw [if_neg (by omega), if_pos hmem]
  · unfold joinRoom
    rw [if_neg (by omega), if_neg (by simp [hmem]), if_pos hst]
  · unfold joinRoom
    rw [if_neg (by omega), if_neg (by simp [hmem]),
      if_neg (show ¬ room.status ≠ .waiting by simp [hst])]

theorem c10_joinRoom_spec_witness :
    joinRoom (roomAfter standardDeck [Action.join "B"]) "C"
        = .error "La sala está llena (máximo 2 jugadores)." ∧
      joinRoom (roomAfter standardDeck []) "A" = .error "Ya estás en esta sala." ∧
      joinRoom (roomAfter standardDeck (lobbyActs ++ [Action.leave "B"])) "C"
        = .error "La partida ya ha comenzado." ∧
      joinRoom (roomAfter standardDeck []) "B"
        = .ok { roomAfter standardDeck [] with
            players := (roomAfter standardDeck []).players
              ++ [("B", { integrity := 0, items := [] })]
            order_players := (roomAfter standardDeck []).order_players ++ ["B"] } := by
  refine ⟨(c10_joinRoom_spec _ "C").1 (by decide),
    (c10_joinRoom_spec _ "A").2.1 (by decide) (by decide),
    (c10_joinRoom_spec _ "C").2.2.1 (by decide) (by decide) (by decide),
    (c10_joinRoom_spec _ "B").2.2.2 (by decide) (by decide) (by decide)⟩

end BackupDeathmatch
